import Mathlib

/-!
Shallow embedding of the storm-node routing core:
* `src/ext/src/messages.rs` — the extension-protocol taxonomy (`ExtMsg`,
  `AddressedMsg`) and the outbound half of the protocol bridge
  (`remote_id`, `p2p_message`, `to_payload`);
* `src/src/stormd/service.rs` — the `Runtime` router state and its
  dispatch handlers (`handle`, `handle_p2p`, `handle_ctl`, `handle_app`,
  `handle_rpc`).

Opaque external identifier types (`NodeId`, `StormApp`, `MesgId`, `Topic`,
`Mesg`, `ClientId`) are modelled as `Nat`: the core only compares and
routes them, never inspects their contents.  `BTreeSet` values are
modelled as strictly-sorted `List Nat`; `BTreeSet::insert` becomes
`bset_insert`.  Rust panics (`unreachable!`) and fallible calls are
modelled with `Except String`; a handler's outcome is an `Out` record
carrying the post-state, the list of emitted bus/log effects, and a
`StepResult` (`ok`, structured `err`, or `panicked`).
-/

/-- Opaque, comparable identity of a remote node (`internet2::addr::NodeId`). -/
abbrev NodeId := Nat

/-- Opaque, orderable extension-application identifier (`storm::StormApp`). -/
abbrev StormApp := Nat

/-- Opaque message identifier (`storm::MesgId`). -/
abbrev MesgId := Nat

/-- Opaque topic value (`storm::Topic`). -/
abbrev Topic := Nat

/-- Opaque message value (`storm::Mesg`). -/
abbrev Mesg := Nat

/-- Opaque client identifier (`lnp_rpc::ClientId`). -/
abbrev ClientId := Nat

/-- `AddressedMsg<T>` from `src/ext/src/messages.rs`: pairs a remote peer
identity with a payload; the `remote_id` is routing metadata only. -/
structure AddressedMsg (T : Type) where
  remote_id : NodeId
  data : T
deriving DecidableEq

/-- `storm::p2p::AppMsg<T>`: a peer-wire application message pairing the
application selector with the payload data. -/
structure AppMsg (T : Type) where
  app : StormApp
  data : T
deriving DecidableEq

/-- `ExtMsg` from `src/ext/src/messages.rs`: the extension-protocol tagged
union.  Every case except `RegisterApp` carries an `AddressedMsg`.
`BTreeSet<MesgId>` is modelled as `List MesgId`. -/
inductive ExtMsg where
  | registerApp (app : StormApp)
  | listTopics (m : AddressedMsg Unit)
  | topics (m : AddressedMsg (List MesgId))
  | proposeTopic (m : AddressedMsg Topic)
  | post (m : AddressedMsg Mesg)
  | read (m : AddressedMsg MesgId)
  | decline (m : AddressedMsg MesgId)
  | accept (m : AddressedMsg MesgId)
deriving DecidableEq

/-- `storm::p2p::Messages` (external `storm` crate): the peer-wire Storm
message family, reconstructed from its uses in `service.rs` and
`messages.rs` — application messages carrying `AppMsg`, the
`ListApps`/`ActiveApps` pair, and the bulk-transfer family (whose payloads
this core never inspects, modelled opaquely as `Nat`). -/
inductive Messages where
  | listApps
  | activeApps (apps : List StormApp)
  | listTopics (m : AppMsg Unit)
  | appTopics (m : AppMsg (List MesgId))
  | proposeTopic (m : AppMsg Topic)
  | post (m : AppMsg Mesg)
  | read (m : AppMsg MesgId)
  | decline (m : AppMsg MesgId)
  | accept (m : AppMsg MesgId)
  | pullContainer (d : Nat)
  | pushContainer (d : Nat)
  | reject (d : Nat)
  | pullChunk (d : Nat)
  | pushChunk (d : Nat)
deriving DecidableEq

/-- `lnp2p::bifrost::BifrostApp`: the application slot of a bifrost
envelope; this core only distinguishes `Storm` from everything else. -/
inductive BifrostApp where
  | storm
  | other (n : Nat)
deriving DecidableEq

/-- Payload bytes of a bifrost envelope, as seen through the external
`STORM_P2P_UNMARSHALLER` codec: either the canonical encoding of a Storm
peer-wire message or undecodable bytes. -/
inductive P2pPayload where
  | wire (m : Messages)
  | garbage (n : Nat)
deriving DecidableEq

/-- `lnp2p::bifrost::Messages` (`LnMsg`): this core pattern-matches only
the `Message(bifrost::Msg { app, payload })` case; all other variants are
modelled opaquely. -/
inductive LnMsg where
  | message (app : BifrostApp) (payload : P2pPayload)
  | other (k : Nat)
deriving DecidableEq

/-- `CtlMsg` (`crate::bus`, not under `src/`): only `Hello` is matched in
`handle_ctl`; remaining variants are opaque. -/
inductive CtlMsg where
  | hello
  | other (n : Nat)
deriving DecidableEq

/-- `RpcMsg` (`storm_rpc`): `handle_rpc` binds every case with a wildcard,
so the variants are opaque here. -/
inductive RpcMsg where
  | msg (n : Nat)
deriving DecidableEq

/-- `ServiceId` (`storm_rpc`): bus counterparty identities matched by the
dispatcher — a peer, a Storm extension app, a client, or anything else. -/
inductive ServiceId where
  | peer (remote_id : NodeId)
  | stormApp (app : StormApp)
  | client (client_id : ClientId)
  | other (n : Nat)
deriving DecidableEq

/-- `ServiceBus` (`crate::bus`): the four logical buses of the router. -/
inductive ServiceBus where
  | msg
  | ctl
  | storm
  | rpc
deriving DecidableEq

/-- `BusMsg` (`crate::bus`): the per-bus message families carried by one
dispatch event. -/
inductive BusMsg where
  | bifrost (m : LnMsg)
  | ctl (m : CtlMsg)
  | storm (m : ExtMsg)
  | rpc (m : RpcMsg)
deriving DecidableEq

/-- The message slot of a `DaemonError`: `wrong_esb_msg` is called on
values of several message types in `service.rs`, so the slot is their sum. -/
inductive AnyMsg where
  | bus (m : BusMsg)
  | ln (m : LnMsg)
  | rpc (m : RpcMsg)
  | ctl (m : CtlMsg)
  | ext (m : ExtMsg)
deriving DecidableEq

/-- Modelled from the spec: `DaemonError` (`crate::`, not under `src/`).
The spec's error taxonomy (§7) reports the bus and message for
invalid/unsupported combinations (`wrong_esb_msg`), the bus, message and a
service identity for a registration identity mismatch
(`wrong_esb_msg_source`), and a decode failure for unparsable wire bytes.
Each constructor captures exactly the arguments its `service.rs` call
sites pass. -/
inductive DaemonError where
  | wrong_esb_msg (bus : ServiceBus) (msg : AnyMsg)
  | wrong_esb_msg_source (bus : ServiceBus) (msg : AnyMsg) (source : ServiceId)
  | decodeFailure (n : Nat)
deriving DecidableEq

/-- Outcome of one handler call: success, a structured `DaemonError`, or a
Rust panic (`unreachable!` / failed `expect`) carrying its diagnostic. -/
inductive StepResult where
  | ok
  | err (e : DaemonError)
  | panicked (diag : String)
deriving DecidableEq

/-- One observable effect of a handler: a send on the extension bus
(`Responder::send_ext`), a send on the peer-network bus
(`Responder::send_p2p`), or a log line (`info!` / `error!`) listing the
application selectors it mentions. -/
inductive Effect where
  | sendExt (service : Option StormApp) (msg : ExtMsg)
  | sendP2p (remote_id : NodeId) (msg : Messages)
  | logInfo (apps : List StormApp)
  | logError (apps : List StormApp)
deriving DecidableEq

/-- `Runtime` from `src/src/stormd/service.rs`: the router state.  The
`registered_apps : BTreeSet<StormApp>` field is modelled as a
strictly-sorted duplicate-free list; the `config` field influences only
startup and is omitted. -/
structure Runtime where
  registered_apps : List StormApp
deriving DecidableEq

/-- `Runtime::init`: starts with an empty registration ledger
(`registered_apps: empty!()`). -/
def Runtime.init : Runtime := ⟨[]⟩

/-- Result of one handler call: post-state, emitted effects (in order),
and the call's outcome. -/
structure Out where
  st : Runtime
  eff : List Effect
  res : StepResult
deriving DecidableEq

/-- `BTreeSet::insert` on the sorted-list model: insert into a
strictly-sorted list, keeping order and never duplicating. -/
def bset_insert (a : Nat) : List Nat → List Nat
  | [] => [a]
  | b :: l =>
    if a < b then a :: b :: l
    else if a = b then b :: l
    else b :: bset_insert a l

/-- `ExtMsg::remote_id` from `src/ext/src/messages.rs`: the remote peer
identity of every case except `RegisterApp`, on which it is
`unreachable!` (modelled as the `Except.error` carrying the panic
diagnostic). -/
def ExtMsg.remote_id : ExtMsg → Except String NodeId
  | .registerApp _ =>
      .error "ExtMsg::remote_id must not be called on ExtMsg::RegisterApp"
  | .listTopics am => .ok am.remote_id
  | .topics am => .ok am.remote_id
  | .proposeTopic am => .ok am.remote_id
  | .post am => .ok am.remote_id
  | .read am => .ok am.remote_id
  | .decline am => .ok am.remote_id
  | .accept am => .ok am.remote_id

/-- `ExtMsg::p2p_message` from `src/ext/src/messages.rs`: the outbound
bridge mapping to a peer-wire Storm message, pairing the originating
application selector with the unwrapped payload data; `RegisterApp` is
`unreachable!`, whose diagnostic string in the source also names
`remote_id`. -/
def ExtMsg.p2p_message : ExtMsg → StormApp → Except String Messages
  | .registerApp _, _ =>
      .error "ExtMsg::remote_id must not be called on ExtMsg::RegisterApp"
  | .listTopics am, app => .ok (.listTopics ⟨app, am.data⟩)
  | .topics am, app => .ok (.appTopics ⟨app, am.data⟩)
  | .proposeTopic am, app => .ok (.proposeTopic ⟨app, am.data⟩)
  | .post am, app => .ok (.post ⟨app, am.data⟩)
  | .read am, app => .ok (.read ⟨app, am.data⟩)
  | .decline am, app => .ok (.decline ⟨app, am.data⟩)
  | .accept am, app => .ok (.accept ⟨app, am.data⟩)

/-- Canonical serialized form of the per-case payload data, standing in
for the external `strict_serialize` codec of `to_payload`. -/
inductive PayloadBytes where
  | unitBytes
  | idSetBytes (s : List MesgId)
  | topicBytes (t : Topic)
  | mesgBytes (m : Mesg)
  | mesgIdBytes (i : MesgId)
deriving DecidableEq

/-- `ExtMsg::to_payload` from `src/ext/src/messages.rs`: serializes only
the payload `data` (never the `remote_id`); `RegisterApp` is
`unreachable!`, with the same diagnostic string as `remote_id`. -/
def ExtMsg.to_payload : ExtMsg → Except String PayloadBytes
  | .registerApp _ =>
      .error "ExtMsg::remote_id must not be called on ExtMsg::RegisterApp"
  | .listTopics _ => .ok .unitBytes
  | .topics am => .ok (.idSetBytes am.data)
  | .proposeTopic am => .ok (.topicBytes am.data)
  | .post am => .ok (.mesgBytes am.data)
  | .read am => .ok (.mesgIdBytes am.data)
  | .decline am => .ok (.mesgIdBytes am.data)
  | .accept am => .ok (.mesgIdBytes am.data)

/-- `AddressedMsg::with` from `src/ext/src/messages.rs`: build an
`AddressedMsg` from a peer-wire `AppMsg` and the remote id supplied by
the bus layer — only the payload is taken from the wire message. -/
def AddressedMsg.with_ {T : Type} (app_msg : AppMsg T) (remote_peer : NodeId) :
    AddressedMsg T :=
  { remote_id := remote_peer, data := app_msg.data }

/-- Modelled from the spec: `StormExtMsg::storm_ext_msg` (trait
implementation of the `storm_ext` crate, not under `src/`) — the inbound
bridge mapping (§4.3).  An application peer-wire message becomes `Ok` of
the target selector and the forwardable `ExtMsg` built with
`AddressedMsg::with` from the out-of-band remote id; the locally-handled
cases (`ListApps`, `ActiveApps`) and the bulk-transfer family are passed
back unhandled as `Err`. -/
def Messages.storm_ext_msg : Messages → NodeId → Except Messages (StormApp × ExtMsg)
  | .listTopics am, remote_id => .ok (am.app, .listTopics (AddressedMsg.with_ am remote_id))
  | .appTopics am, remote_id => .ok (am.app, .topics (AddressedMsg.with_ am remote_id))
  | .proposeTopic am, remote_id => .ok (am.app, .proposeTopic (AddressedMsg.with_ am remote_id))
  | .post am, remote_id => .ok (am.app, .post (AddressedMsg.with_ am remote_id))
  | .read am, remote_id => .ok (am.app, .read (AddressedMsg.with_ am remote_id))
  | .decline am, remote_id => .ok (am.app, .decline (AddressedMsg.with_ am remote_id))
  | .accept am, remote_id => .ok (am.app, .accept (AddressedMsg.with_ am remote_id))
  | m, _ => .error m

/-- Modelled from the spec: the external `STORM_P2P_UNMARSHALLER` codec
(§6): decodes canonical wire bytes back to the message, fails with a
`DecodeFailure` on anything else. -/
def unmarshall : P2pPayload → Except Nat Messages
  | .wire m => .ok m
  | .garbage n => .error n

/-- `Runtime::handle_p2p` from `src/src/stormd/service.rs`: inbound
peer-bus handling.  A bifrost envelope with the Storm selector is
unmarshalled and classified through the inbound bridge: forwardable
messages go to the extension bus, `ListApps` is answered with the current
ledger, `ActiveApps` and the bulk-transfer family are ignored.  Any other
`LnMsg` is rejected with `wrong_esb_msg(ServiceBus::Rpc, ..)` (the bus
named by the source code at this call site). -/
def Runtime.handle_p2p (st : Runtime) (remote_id : NodeId) (message : LnMsg) : Out :=
  match message with
  | .message .storm payload =>
    match unmarshall payload with
    | .error n => ⟨st, [], .err (.decodeFailure n)⟩
    | .ok mesg =>
      match mesg.storm_ext_msg remote_id with
      | .ok (app, storm_msg) => ⟨st, [.sendExt (some app) storm_msg], .ok⟩
      | .error .listApps =>
          ⟨st, [.sendP2p remote_id (.activeApps st.registered_apps)], .ok⟩
      | .error (.activeApps _) => ⟨st, [], .ok⟩
      | .error _ => ⟨st, [], .ok⟩
  | other => ⟨st, [.logError []], .err (.wrong_esb_msg .rpc (.ln other))⟩

/-- `Runtime::handle_rpc` from `src/src/stormd/service.rs`: every client
request hits the wildcard arm — an error log and
`wrong_esb_msg(ServiceBus::Rpc, ..)`. -/
def Runtime.handle_rpc (st : Runtime) (_client_id : ClientId) (message : RpcMsg) : Out :=
  ⟨st, [.logError []], .err (.wrong_esb_msg .rpc (.rpc message))⟩

/-- `Runtime::handle_ctl` from `src/src/stormd/service.rs`: `Hello` is
accepted with no state change; every other control message is rejected
with `wrong_esb_msg(ServiceBus::Ctl, ..)`. -/
def Runtime.handle_ctl (st : Runtime) (_source : ServiceId) (message : CtlMsg) : Out :=
  match message with
  | .hello => ⟨st, [], .ok⟩
  | wrong => ⟨st, [.logError []], .err (.wrong_esb_msg .ctl (.ctl wrong))⟩

/-- `Runtime::handle_app` from `src/src/stormd/service.rs`: extension-bus
handling.  `RegisterApp(app_id)` from origin selector `app` inserts
`app_id` when `app = app_id` (with an info log naming `app_id`) and
otherwise fails with `wrong_esb_msg_source(Storm, &message,
StormApp(app_id))` after an error log naming `app` and `app_id`.  Every
other message is forwarded unconditionally: one peer-network send to
`forward.remote_id()` carrying `forward.p2p_message(app)`. -/
def Runtime.handle_app (st : Runtime) (app : StormApp) (message : ExtMsg) : Out :=
  match message with
  | .registerApp app_id =>
    if app = app_id then
      ⟨⟨bset_insert app_id st.registered_apps⟩, [.logInfo [app_id]], .ok⟩
    else
      ⟨st, [.logError [app, app_id]],
        .err (.wrong_esb_msg_source .storm (.ext (.registerApp app_id))
          (.stormApp app_id))⟩
  | forward =>
    match forward.remote_id, forward.p2p_message app with
    | .ok r, .ok p => ⟨st, [.sendP2p r p], .ok⟩
    | .error d, _ => ⟨st, [], .panicked d⟩
    | .ok _, .error d => ⟨st, [], .panicked d⟩

/-- `esb::Handler::handle` for `Runtime` from `src/src/stormd/service.rs`:
the dispatch table over `(bus, request, source)`; any combination outside
the four listed arms is rejected with `wrong_esb_msg(bus, &msg)`. -/
def Runtime.handle (st : Runtime) (bus_id : ServiceBus) (source : ServiceId)
    (request : BusMsg) : Out :=
  match bus_id, request, source with
  | .msg, .bifrost m, .peer remote_id => st.handle_p2p remote_id m
  | .ctl, .ctl m, source => st.handle_ctl source m
  | .storm, .storm m, .stormApp app => st.handle_app app m
  | .rpc, .rpc m, .client client_id => st.handle_rpc client_id m
  | bus, msg, _ => ⟨st, [], .err (.wrong_esb_msg bus (.bus msg))⟩

/-- One dispatch event: the bus it arrived on, its source identity and the
request it carries. -/
structure Event where
  bus : ServiceBus
  source : ServiceId
  request : BusMsg
deriving DecidableEq

/-- Apply one dispatch event to the router state. -/
def stepE (st : Runtime) (e : Event) : Out :=
  st.handle e.bus e.source e.request

/-- Run the router over a sequence of dispatch events, keeping only the
state (the esb controller reports errors and continues). -/
def runE (st : Runtime) : List Event → Runtime
  | [] => st
  | e :: tr => runE (stepE st e).st tr

/-- Router states reachable from `Runtime::init` by dispatch events. -/
inductive Reachable : Runtime → Prop
  | init : Reachable Runtime.init
  | step (st : Runtime) (e : Event) : Reachable st → Reachable (stepE st e).st

/-- Application selectors named by a `ServiceId`. -/
def ServiceId.namedApps : ServiceId → List StormApp
  | .stormApp app => [app]
  | _ => []

/-- Application selectors named inside a dispatched message. -/
def AnyMsg.namedApps : AnyMsg → List StormApp
  | .ext (.registerApp app) => [app]
  | _ => []

/-- Application selectors named by a structured `DaemonError`. -/
def DaemonError.namedApps : DaemonError → List StormApp
  | .wrong_esb_msg _ msg => msg.namedApps
  | .wrong_esb_msg_source _ msg source => msg.namedApps ++ source.namedApps
  | .decodeFailure _ => []

/-- Application selectors named by one emitted effect (log lines). -/
def Effect.namedApps : Effect → List StormApp
  | .logInfo apps => apps
  | .logError apps => apps
  | _ => []

/-- All application selectors named by a failing handler call's
observables: its log output together with its structured error. -/
def Out.errorNamedApps (o : Out) : List StormApp :=
  (o.eff.flatMap Effect.namedApps) ++
    (match o.res with
     | .err e => e.namedApps
     | _ => [])

/-! ### Lemmas about the sorted-set model of `BTreeSet` -/

theorem bset_insert_mem (a b : Nat) (l : List Nat) :
    b ∈ bset_insert a l ↔ b = a ∨ b ∈ l := by
  induction l with
  | nil => simp [bset_insert]
  | cons c l ih =>
    simp only [bset_insert]
    split
    · simp [List.mem_cons]
    · split
      · subst a
        simp only [List.mem_cons]
        tauto
      · simp only [List.mem_cons, ih]
        tauto

theorem bset_insert_sorted (a : Nat) (l : List Nat)
    (h : List.Sorted (· < ·) l) :
    List.Sorted (· < ·) (bset_insert a l) := by
  induction l with
  | nil => simp [bset_insert]
  | cons c l ih =>
    rw [List.sorted_cons] at h
    obtain ⟨hc, hl⟩ := h
    simp only [bset_insert]
    split
    · rw [List.sorted_cons]
      refine ⟨?_, by rw [List.sorted_cons]; exact ⟨hc, hl⟩⟩
      intro b hb
      rcases List.mem_cons.mp hb with hb | hb
      · omega
      · have := hc b hb
        omega
    · split
      · rw [List.sorted_cons]
        exact ⟨hc, hl⟩
      · rw [List.sorted_cons]
        refine ⟨?_, ih hl⟩
        intro b hb
        rcases (bset_insert_mem a b l).mp hb with hb | hb
        · omega
        · exact hc b hb

theorem bset_insert_idem (a : Nat) (l : List Nat) :
    bset_insert a (bset_insert a l) = bset_insert a l := by
  induction l with
  | nil => simp [bset_insert]
  | cons c l ih =>
    simp only [bset_insert]
    split
    · simp [bset_insert, *]
    · split
      · simp only [bset_insert]
        rw [if_neg (by assumption), if_pos (by assumption)]
      · simp only [bset_insert]
        rw [if_neg (by assumption), if_neg (by assumption), ih]

/-! ### Per-handler state lemmas -/

theorem handle_p2p_st (st : Runtime) (r : NodeId) (m : LnMsg) :
    (st.handle_p2p r m).st = st := by
  unfold Runtime.handle_p2p
  split
  · split
    · rfl
    · split <;> rfl
  · rfl

theorem handle_ctl_st (st : Runtime) (s : ServiceId) (m : CtlMsg) :
    (st.handle_ctl s m).st = st := by
  unfold Runtime.handle_ctl
  split <;> rfl

theorem handle_app_ledger (st : Runtime) (app : StormApp) (m : ExtMsg) :
    (st.handle_app app m).st.registered_apps = st.registered_apps ∨
      (m = .registerApp app ∧
        (st.handle_app app m).st.registered_apps
          = bset_insert app st.registered_apps ∧
        (st.handle_app app m).res = .ok) := by
  cases m with
  | registerApp a =>
    by_cases h : app = a
    · subst h
      right
      refine ⟨rfl, ?_, ?_⟩ <;> simp [Runtime.handle_app]
    · left
      simp [Runtime.handle_app, h]
  | listTopics am => left; rfl
  | topics am => left; rfl
  | proposeTopic am => left; rfl
  | post am => left; rfl
  | read am => left; rfl
  | decline am => left; rfl
  | accept am => left; rfl

theorem ledger_step (st : Runtime) (e : Event) :
    (stepE st e).st.registered_apps = st.registered_apps ∨
      ∃ a, e.bus = .storm ∧ e.source = .stormApp a ∧
        e.request = .storm (.registerApp a) ∧
        (stepE st e).st.registered_apps = bset_insert a st.registered_apps ∧
        (stepE st e).res = .ok := by
  obtain ⟨bus, source, request⟩ := e
  cases bus with
  | msg =>
    cases request with
    | bifrost m =>
      cases source with
      | peer r => left; rw [show stepE st ⟨.msg, .peer r, .bifrost m⟩ = st.handle_p2p r m from rfl, handle_p2p_st]
      | stormApp a => left; rfl
      | client c => left; rfl
      | other n => left; rfl
    | ctl m => left; rfl
    | storm m => left; rfl
    | rpc m => left; rfl
  | ctl =>
    cases request with
    | bifrost m => left; rfl
    | ctl m =>
      left
      rw [show stepE st ⟨.ctl, source, .ctl m⟩ = st.handle_ctl source m from rfl, handle_ctl_st]
    | storm m => left; rfl
    | rpc m => left; rfl
  | storm =>
    cases request with
    | bifrost m => left; rfl
    | ctl m => left; rfl
    | storm m =>
      cases source with
      | peer r => left; rfl
      | stormApp app =>
        have h := handle_app_ledger st app m
        rcases h with h | ⟨hm, hins, hok⟩
        · left; exact h
        · right
          exact ⟨app, rfl, rfl, by rw [hm], hins, hok⟩
      | client c => left; rfl
      | other n => left; rfl
    | rpc m => left; rfl
  | rpc =>
    cases request with
    | bifrost m => left; rfl
    | ctl m => left; rfl
    | storm m => left; rfl
    | rpc m =>
      cases source with
      | peer r => left; rfl
      | stormApp a => left; rfl
      | client c => left; rfl
      | other n => left; rfl

theorem ledger_mono (st : Runtime) (e : Event) (a : StormApp)
    (ha : a ∈ st.registered_apps) : a ∈ (stepE st e).st.registered_apps := by
  rcases ledger_step st e with h | ⟨b, _, _, _, hins, _⟩
  · rw [h]; exact ha
  · rw [hins]
    exact (bset_insert_mem b a _).mpr (Or.inr ha)

theorem runE_provenance (tr : List Event) (st : Runtime) (a : StormApp)
    (ha : a ∈ (runE st tr).registered_apps) :
    a ∈ st.registered_apps ∨
      ∃ e ∈ tr, e.bus = .storm ∧ e.source = .stormApp a ∧
        e.request = .storm (.registerApp a) := by
  induction tr generalizing st with
  | nil => exact Or.inl ha
  | cons e tr ih =>
    rcases ih (stepE st e).st ha with h | ⟨e', he', h1, h2, h3⟩
    · rcases ledger_step st e with heq | ⟨b, hb1, hb2, hb3, hins, _⟩
      · rw [heq] at h
        exact Or.inl h
      · rw [hins] at h
        rcases (bset_insert_mem b a _).mp h with rfl | h
        · exact Or.inr ⟨e, List.mem_cons_self e tr, hb1, hb2, hb3⟩
        · exact Or.inl h
    · exact Or.inr ⟨e', List.mem_cons_of_mem e he', h1, h2, h3⟩

theorem reachable_sorted (st : Runtime) (h : Reachable st) :
    List.Sorted (· < ·) st.registered_apps := by
  induction h with
  | init => simp [Runtime.init]
  | step st e _ ih =>
    rcases ledger_step st e with heq | ⟨a, _, _, _, hins, _⟩
    · rw [heq]; exact ih
    · rw [hins]
      exact bset_insert_sorted a _ ih

/-! ### Claim theorems -/

/-- C1: Ledger anti-spoofing invariant — no handling step on any bus ever
removes an entry from `registered_apps`; every selector present after any
event sequence from the initial state was put there by a
`RegisterApp` event on the storm bus whose claimed selector equals the
selector of the requesting origin; and such a matching registration step
always succeeds. -/
theorem c1_ledger_anti_spoofing :
    (∀ (st : Runtime) (e : Event) (a : StormApp),
        a ∈ st.registered_apps → a ∈ (stepE st e).st.registered_apps) ∧
    (∀ (tr : List Event) (a : StormApp),
        a ∈ (runE Runtime.init tr).registered_apps →
          ∃ e ∈ tr, e.bus = .storm ∧ e.source = .stormApp a ∧
            e.request = .storm (.registerApp a)) ∧
    (∀ (st : Runtime) (a : StormApp),
        (st.handle .storm (.stormApp a) (.storm (.registerApp a))).res = .ok) := by
  refine ⟨ledger_mono, ?_, ?_⟩
  · intro tr a ha
    rcases runE_provenance tr Runtime.init a ha with h | h
    · simp [Runtime.init] at h
    · exact h
  · intro st a
    simp [Runtime.handle, Runtime.handle_app]

theorem c1_ledger_anti_spoofing_witness :
    ((0 : StormApp) ∈
        (stepE ⟨[0]⟩ ⟨.ctl, .other 0, .ctl .hello⟩).st.registered_apps) ∧
    (∃ e ∈ [(⟨.storm, .stormApp 0, .storm (.registerApp 0)⟩ : Event)],
        e.bus = .storm ∧ e.source = .stormApp 0 ∧
          e.request = .storm (.registerApp 0)) ∧
    ((Runtime.init.handle .storm (.stormApp 0) (.storm (.registerApp 0))).res
        = .ok) :=
  ⟨c1_ledger_anti_spoofing.1 ⟨[0]⟩ ⟨.ctl, .other 0, .ctl .hello⟩ 0 (by decide),
   c1_ledger_anti_spoofing.2.1 [⟨.storm, .stormApp 0, .storm (.registerApp 0)⟩]
     0 (by decide),
   c1_ledger_anti_spoofing.2.2 Runtime.init 0⟩

/-- C2: a `RegisterApp(claimed)` event from an origin whose selector
differs from `claimed` fails with the wrong-bus-source error and leaves
the ledger exactly unchanged; the step's error observables (the error log
plus the structured error) name both the claimed selector and the actual
origin selector. -/
theorem c2_register_mismatch (st : Runtime) (app claimed : StormApp)
    (h : claimed ≠ app) :
    st.handle .storm (.stormApp app) (.storm (.registerApp claimed))
        = ⟨st, [.logError [app, claimed]],
            .err (.wrong_esb_msg_source .storm (.ext (.registerApp claimed))
              (.stormApp claimed))⟩ ∧
    claimed ∈ (st.handle .storm (.stormApp app)
        (.storm (.registerApp claimed))).errorNamedApps ∧
    app ∈ (st.handle .storm (.stormApp app)
        (.storm (.registerApp claimed))).errorNamedApps := by
  have hne : app ≠ claimed := fun hh => h hh.symm
  have heq : st.handle .storm (.stormApp app) (.storm (.registerApp claimed))
      = ⟨st, [.logError [app, claimed]],
          .err (.wrong_esb_msg_source .storm (.ext (.registerApp claimed))
            (.stormApp claimed))⟩ := by
    simp [Runtime.handle, Runtime.handle_app, hne]
  refine ⟨heq, ?_, ?_⟩ <;> rw [heq] <;>
    simp [Out.errorNamedApps, Effect.namedApps, AnyMsg.namedApps,
      ServiceId.namedApps, DaemonError.namedApps]

theorem c2_register_mismatch_witness :
    (0 : StormApp) ≠ 1 ∧
    (Runtime.init.handle .storm (.stormApp 1) (.storm (.registerApp 0))
        = ⟨Runtime.init, [.logError [1, 0]],
            .err (.wrong_esb_msg_source .storm (.ext (.registerApp 0))
              (.stormApp 0))⟩ ∧
      (0 : StormApp) ∈ (Runtime.init.handle .storm (.stormApp 1)
          (.storm (.registerApp 0))).errorNamedApps ∧
      (1 : StormApp) ∈ (Runtime.init.handle .storm (.stormApp 1)
          (.storm (.registerApp 0))).errorNamedApps) :=
  ⟨by decide, c2_register_mismatch Runtime.init 1 0 (by decide)⟩

/-- C3: registration is idempotent — a matching `RegisterApp` on the storm
bus succeeds, handling it a second time from the same origin succeeds
again, and the ledger after the second call equals the ledger after the
first. -/
theorem c3_register_idempotent (st : Runtime) (a : StormApp) :
    (st.handle .storm (.stormApp a) (.storm (.registerApp a))).res = .ok ∧
    ((st.handle .storm (.stormApp a) (.storm (.registerApp a))).st.handle
        .storm (.stormApp a) (.storm (.registerApp a))).res = .ok ∧
    ((st.handle .storm (.stormApp a) (.storm (.registerApp a))).st.handle
        .storm (.stormApp a) (.storm (.registerApp a))).st.registered_apps
      = (st.handle .storm (.stormApp a)
          (.storm (.registerApp a))).st.registered_apps := by
  refine ⟨?_, ?_, ?_⟩ <;>
    simp [Runtime.handle, Runtime.handle_app, bset_insert_idem]

/-- C4: an inbound peer-bus "list active applications" request from peer
`remote` produces exactly one reply — a peer-network send to `remote`
carrying the current ledger — no extension-bus traffic and no state
change; at every reachable state that ledger is strictly sorted and
duplicate-free. -/
theorem c4_list_apps_reply (st : Runtime) (remote : NodeId)
    (h : Reachable st) :
    st.handle .msg (.peer remote) (.bifrost (.message .storm (.wire .listApps)))
        = ⟨st, [.sendP2p remote (.activeApps st.registered_apps)], .ok⟩ ∧
    List.Sorted (· < ·) st.registered_apps ∧
    st.registered_apps.Nodup :=
  ⟨rfl, reachable_sorted st h, (reachable_sorted st h).nodup⟩

theorem c4_list_apps_reply_witness :
    Runtime.init.handle .msg (.peer 7)
        (.bifrost (.message .storm (.wire .listApps)))
      = ⟨Runtime.init, [.sendP2p 7 (.activeApps Runtime.init.registered_apps)],
          .ok⟩ ∧
    List.Sorted (· < ·) Runtime.init.registered_apps ∧
    Runtime.init.registered_apps.Nodup :=
  c4_list_apps_reply Runtime.init 7 Reachable.init

/-- C5: every non-`RegisterApp` `ExtMsg` arriving on the storm bus from an
extension with selector `app` is forwarded unconditionally — whatever the
ledger contains — as exactly one peer-network send to the remote id
carried in its `AddressedMsg`, with the originating selector `app` and
the unwrapped payload data only (the remote id appears nowhere in the
peer-wire message). -/
theorem c5_unconditional_forward (st : Runtime) (app : StormApp) (r : NodeId) :
    (∀ d : Unit, st.handle .storm (.stormApp app) (.storm (.listTopics ⟨r, d⟩))
        = ⟨st, [.sendP2p r (.listTopics ⟨app, d⟩)], .ok⟩) ∧
    (∀ d : List MesgId, st.handle .storm (.stormApp app) (.storm (.topics ⟨r, d⟩))
        = ⟨st, [.sendP2p r (.appTopics ⟨app, d⟩)], .ok⟩) ∧
    (∀ d : Topic, st.handle .storm (.stormApp app) (.storm (.proposeTopic ⟨r, d⟩))
        = ⟨st, [.sendP2p r (.proposeTopic ⟨app, d⟩)], .ok⟩) ∧
    (∀ d : Mesg, st.handle .storm (.stormApp app) (.storm (.post ⟨r, d⟩))
        = ⟨st, [.sendP2p r (.post ⟨app, d⟩)], .ok⟩) ∧
    (∀ d : MesgId, st.handle .storm (.stormApp app) (.storm (.read ⟨r, d⟩))
        = ⟨st, [.sendP2p r (.read ⟨app, d⟩)], .ok⟩) ∧
    (∀ d : MesgId, st.handle .storm (.stormApp app) (.storm (.decline ⟨r, d⟩))
        = ⟨st, [.sendP2p r (.decline ⟨app, d⟩)], .ok⟩) ∧
    (∀ d : MesgId, st.handle .storm (.stormApp app) (.storm (.accept ⟨r, d⟩))
        = ⟨st, [.sendP2p r (.accept ⟨app, d⟩)], .ok⟩) :=
  ⟨fun _ => rfl, fun _ => rfl, fun _ => rfl, fun _ => rfl, fun _ => rfl,
   fun _ => rfl, fun _ => rfl⟩

/-- C6: the dispatch wildcard rejects out-of-table combinations naming the
arriving bus — but a peer-network envelope whose application selector is
not the Storm selector is rejected with an error naming `ServiceBus::Rpc`
although the event arrived on the `Msg` (peer-network) bus, and the state
is unchanged.  This theorem evaluates the code at that failing input. -/
theorem c6_wrong_bus_names_rpc :
    Runtime.init.handle .msg (.peer 7) (.bifrost (.message (.other 0) (.garbage 0)))
        = ⟨Runtime.init, [.logError []],
            .err (.wrong_esb_msg .rpc (.ln (.message (.other 0) (.garbage 0))))⟩ ∧
    ServiceBus.rpc ≠ ServiceBus.msg :=
  ⟨rfl, by decide⟩

/-- C7: every client-bus request from a client is answered with the
structured unsupported-request error (`wrong_esb_msg` on the recognized
`Rpc` bus, carrying the message) after an error log — never a silent
success — and the router state is exactly unchanged. -/
theorem c7_client_bus_unsupported (st : Runtime) (c : ClientId) (m : RpcMsg) :
    st.handle .rpc (.client c) (.rpc m)
      = ⟨st, [.logError []], .err (.wrong_esb_msg .rpc (.rpc m))⟩ := rfl

/-- C8: calling `remote_id`, `p2p_message` or `to_payload` on
`RegisterApp` aborts the call with a diagnostic — but all three sites
carry the identical diagnostic string (naming `remote_id`), so the
remote-address misuse and the Bridge misuses are not distinguishable;
on every other `ExtMsg` case all three functions succeed without reaching
any error branch.  This theorem evaluates the code at the failing input. -/
theorem c8_indistinguishable_diagnostics :
    ((ExtMsg.registerApp 0).remote_id
        = .error "ExtMsg::remote_id must not be called on ExtMsg::RegisterApp") ∧
    ((ExtMsg.registerApp 0).p2p_message 0
        = .error "ExtMsg::remote_id must not be called on ExtMsg::RegisterApp") ∧
    ((ExtMsg.registerApp 0).to_payload
        = .error "ExtMsg::remote_id must not be called on ExtMsg::RegisterApp") ∧
    (∀ (r : NodeId) (app : StormApp),
      (∀ d : Unit, (ExtMsg.listTopics ⟨r, d⟩).remote_id = .ok r ∧
          (ExtMsg.listTopics ⟨r, d⟩).p2p_message app = .ok (.listTopics ⟨app, d⟩) ∧
          (ExtMsg.listTopics ⟨r, d⟩).to_payload = .ok .unitBytes) ∧
      (∀ d : List MesgId, (ExtMsg.topics ⟨r, d⟩).remote_id = .ok r ∧
          (ExtMsg.topics ⟨r, d⟩).p2p_message app = .ok (.appTopics ⟨app, d⟩) ∧
          (ExtMsg.topics ⟨r, d⟩).to_payload = .ok (.idSetBytes d)) ∧
      (∀ d : Topic, (ExtMsg.proposeTopic ⟨r, d⟩).remote_id = .ok r ∧
          (ExtMsg.proposeTopic ⟨r, d⟩).p2p_message app = .ok (.proposeTopic ⟨app, d⟩) ∧
          (ExtMsg.proposeTopic ⟨r, d⟩).to_payload = .ok (.topicBytes d)) ∧
      (∀ d : Mesg, (ExtMsg.post ⟨r, d⟩).remote_id = .ok r ∧
          (ExtMsg.post ⟨r, d⟩).p2p_message app = .ok (.post ⟨app, d⟩) ∧
          (ExtMsg.post ⟨r, d⟩).to_payload = .ok (.mesgBytes d)) ∧
      (∀ d : MesgId, (ExtMsg.read ⟨r, d⟩).remote_id = .ok r ∧
          (ExtMsg.read ⟨r, d⟩).p2p_message app = .ok (.read ⟨app, d⟩) ∧
          (ExtMsg.read ⟨r, d⟩).to_payload = .ok (.mesgIdBytes d)) ∧
      (∀ d : MesgId, (ExtMsg.decline ⟨r, d⟩).remote_id = .ok r ∧
          (ExtMsg.decline ⟨r, d⟩).p2p_message app = .ok (.decline ⟨app, d⟩) ∧
          (ExtMsg.decline ⟨r, d⟩).to_payload = .ok (.mesgIdBytes d)) ∧
      (∀ d : MesgId, (ExtMsg.accept ⟨r, d⟩).remote_id = .ok r ∧
          (ExtMsg.accept ⟨r, d⟩).p2p_message app = .ok (.accept ⟨app, d⟩) ∧
          (ExtMsg.accept ⟨r, d⟩).to_payload = .ok (.mesgIdBytes d))) :=
  ⟨rfl, rfl, rfl, fun _ _ =>
    ⟨fun _ => ⟨rfl, rfl, rfl⟩, fun _ => ⟨rfl, rfl, rfl⟩, fun _ => ⟨rfl, rfl, rfl⟩,
     fun _ => ⟨rfl, rfl, rfl⟩, fun _ => ⟨rfl, rfl, rfl⟩, fun _ => ⟨rfl, rfl, rfl⟩,
     fun _ => ⟨rfl, rfl, rfl⟩⟩⟩

/-- C9: round trip — for every `ExtMsg` case except `RegisterApp`, the
outbound bridge mapping (`p2p_message`) followed by the inbound bridge
mapping (`storm_ext_msg`) with the same remote id yields the original
message and originating selector back; `RegisterApp` has no peer-wire
encoding (`p2p_message` refuses it). -/
theorem c9_round_trip (app : StormApp) (r : NodeId) :
    (∀ d : Unit, (ExtMsg.listTopics ⟨r, d⟩).p2p_message app
          = .ok (.listTopics ⟨app, d⟩) ∧
        (Messages.listTopics ⟨app, d⟩).storm_ext_msg r
          = .ok (app, .listTopics ⟨r, d⟩)) ∧
    (∀ d : List MesgId, (ExtMsg.topics ⟨r, d⟩).p2p_message app
          = .ok (.appTopics ⟨app, d⟩) ∧
        (Messages.appTopics ⟨app, d⟩).storm_ext_msg r
          = .ok (app, .topics ⟨r, d⟩)) ∧
    (∀ d : Topic, (ExtMsg.proposeTopic ⟨r, d⟩).p2p_message app
          = .ok (.proposeTopic ⟨app, d⟩) ∧
        (Messages.proposeTopic ⟨app, d⟩).storm_ext_msg r
          = .ok (app, .proposeTopic ⟨r, d⟩)) ∧
    (∀ d : Mesg, (ExtMsg.post ⟨r, d⟩).p2p_message app = .ok (.post ⟨app, d⟩) ∧
        (Messages.post ⟨app, d⟩).storm_ext_msg r = .ok (app, .post ⟨r, d⟩)) ∧
    (∀ d : MesgId, (ExtMsg.read ⟨r, d⟩).p2p_message app = .ok (.read ⟨app, d⟩) ∧
        (Messages.read ⟨app, d⟩).storm_ext_msg r = .ok (app, .read ⟨r, d⟩)) ∧
    (∀ d : MesgId, (ExtMsg.decline ⟨r, d⟩).p2p_message app
          = .ok (.decline ⟨app, d⟩) ∧
        (Messages.decline ⟨app, d⟩).storm_ext_msg r
          = .ok (app, .decline ⟨r, d⟩)) ∧
    (∀ d : MesgId, (ExtMsg.accept ⟨r, d⟩).p2p_message app
          = .ok (.accept ⟨app, d⟩) ∧
        (Messages.accept ⟨app, d⟩).storm_ext_msg r
          = .ok (app, .accept ⟨r, d⟩)) ∧
    (∀ a : StormApp, (ExtMsg.registerApp a).p2p_message app
        = .error "ExtMsg::remote_id must not be called on ExtMsg::RegisterApp") :=
  ⟨fun _ => ⟨rfl, rfl⟩, fun _ => ⟨rfl, rfl⟩, fun _ => ⟨rfl, rfl⟩,
   fun _ => ⟨rfl, rfl⟩, fun _ => ⟨rfl, rfl⟩, fun _ => ⟨rfl, rfl⟩,
   fun _ => ⟨rfl, rfl⟩, fun _ => rfl⟩

/-- C10: an inbound peer-bus "active applications" report, and every
member of the bulk-transfer family, is accepted: handling succeeds,
emits nothing on any bus, and leaves the router state (in particular the
ledger) exactly unchanged. -/
theorem c10_ignored_inbound (st : Runtime) (remote : NodeId) :
    (∀ l : List StormApp, st.handle .msg (.peer remote)
        (.bifrost (.message .storm (.wire (.activeApps l)))) = ⟨st, [], .ok⟩) ∧
    (∀ d : Nat, st.handle .msg (.peer remote)
        (.bifrost (.message .storm (.wire (.pullContainer d)))) = ⟨st, [], .ok⟩) ∧
    (∀ d : Nat, st.handle .msg (.peer remote)
        (.bifrost (.message .storm (.wire (.pushContainer d)))) = ⟨st, [], .ok⟩) ∧
    (∀ d : Nat, st.handle .msg (.peer remote)
        (.bifrost (.message .storm (.wire (.reject d)))) = ⟨st, [], .ok⟩) ∧
    (∀ d : Nat, st.handle .msg (.peer remote)
        (.bifrost (.message .storm (.wire (.pullChunk d)))) = ⟨st, [], .ok⟩) ∧
    (∀ d : Nat, st.handle .msg (.peer remote)
        (.bifrost (.message .storm (.wire (.pushChunk d)))) = ⟨st, [], .ok⟩) :=
  ⟨fun _ => rfl, fun _ => rfl, fun _ => rfl, fun _ => rfl, fun _ => rfl,
   fun _ => rfl⟩
